import Mathlib

/-!
Shallow embedding of the beat/keyframe derivation and style-consistency
pipeline of the novel-to-trailer repository, together with proofs about it.

Embedded sources:
* backend/scripts/build_main_character_profiles.py
  (aggregate_characters, score_character, select_main_characters);
* backend/scripts/scene_to_trailer.py
  (the TrailerScript data model and the validation performed on the model
  response by generate_trailer_script_from_scenes);
* backend/scripts/trailer_to_keyframe.py
  (index_scenes_by_id and the beat-processing loop of
  generate_keyframes_for_trailer);
* backend/scripts/unify_keyframe_style.py
  (the per-keyframe prompt-rewrite loop of main);
* backend/scripts/novel_world_profile.py
  (build_world_profile_two_stage).

Conventions: Python floats on the values these scripts actually handle
(small decimal durations, integer counts, halves) are modelled by Rat;
Python dicts keyed by strings are modelled by association lists in insertion
order or by functions to Option; Python list.sort with a key and
reverse=True, which is a stable descending sort, is modelled by
List.mergeSort with the corresponding total preorder; external
generation-model calls are abstract function parameters.
-/

/-! ### Character aggregation (build_main_character_profiles.py) -/

/-- Importance tier of one character mention, the Importance Literal of
build_main_character_profiles.py. -/
inductive Importance where
  | main_protagonist : Importance
  | secondary_lead : Importance
  | supporting : Importance
  | minor : Importance
deriving DecidableEq

/-- One descriptive snippet about a character (TraitSnippet model); category
is one of the six TraitCategory literal strings. -/
structure TraitSnippet where
  category : String
  original_text : String
  normalized : String
deriving DecidableEq

/-- One character's appearance evidence within one chapter
(ChapterCharacterMention model). -/
structure ChapterCharacterMention where
  canonical_name : String
  aliases : List String
  importance : Importance
  chapter_id : String
  chapter_role_summary : String
  trait_snippets : List TraitSnippet
deriving DecidableEq

/-- Extraction result for one chapter (ChapterCharactersWithTraits model). -/
structure ChapterCharactersWithTraits where
  chapter_id : String
  characters : List ChapterCharacterMention
deriving DecidableEq

/-- One aggregated character entry, the per-name dict built by
aggregate_characters: alias set, set of chapters seen, the four per-tier
mention counts of the importance_counts dict, and the raw mention list. -/
structure AggregatedCharacter where
  aliases : Finset String
  chapters_seen : Finset String
  main_protagonist_count : Nat
  secondary_lead_count : Nat
  supporting_count : Nat
  minor_count : Nat
  mentions : List ChapterCharacterMention
deriving DecidableEq

/-- The fresh entry inserted when a canonical name is first seen. -/
def emptyAggregated : AggregatedCharacter :=
  { aliases := ∅
    chapters_seen := ∅
    main_protagonist_count := 0
    secondary_lead_count := 0
    supporting_count := 0
    minor_count := 0
    mentions := [] }

/-- importance_counts[c.importance] += 1. -/
def bumpImportance (e : AggregatedCharacter) (imp : Importance) : AggregatedCharacter :=
  match imp with
  | .main_protagonist => { e with main_protagonist_count := e.main_protagonist_count + 1 }
  | .secondary_lead => { e with secondary_lead_count := e.secondary_lead_count + 1 }
  | .supporting => { e with supporting_count := e.supporting_count + 1 }
  | .minor => { e with minor_count := e.minor_count + 1 }

/-- Python str.strip with no arguments: drop leading and trailing
whitespace.  (String.trim of the library is extensionally the same but is
defined by well-founded recursion on byte positions, which the kernel cannot
evaluate; this structural form keeps the embedding executable.) -/
def pyStrip (s : String) : String :=
  ⟨((s.data.dropWhile Char.isWhitespace).reverse.dropWhile Char.isWhitespace).reverse⟩

/-- One loop body step of aggregate_characters on an existing entry:
update aliases with the stripped non-empty alias strings, add the mention's
chapter_id to chapters_seen, bump the importance count, append the mention. -/
def applyMention (e : AggregatedCharacter) (c : ChapterCharacterMention) : AggregatedCharacter :=
  bumpImportance
    { e with
      aliases := e.aliases ∪ ((c.aliases.filter (fun a => a ≠ "")).map pyStrip).toFinset
      chapters_seen := insert c.chapter_id e.chapters_seen
      mentions := e.mentions ++ [c] }
    c.importance

/-- Python dict update on an insertion-ordered association list: mutate the
entry in place when the key exists, append a fresh entry otherwise. -/
def upsert (m : List (String × AggregatedCharacter)) (name : String)
    (c : ChapterCharacterMention) : List (String × AggregatedCharacter) :=
  match m with
  | [] => [(name, applyMention emptyAggregated c)]
  | (k, e) :: rest =>
    if k = name then (k, applyMention e c) :: rest
    else (k, e) :: upsert rest name c

/-- Processing of one mention by aggregate_characters: strip the canonical
name, skip the mention when the stripped name is empty, otherwise update the
map at that name. -/
def aggStep (m : List (String × AggregatedCharacter)) (c : ChapterCharacterMention) :
    List (String × AggregatedCharacter) :=
  let name := pyStrip c.canonical_name
  if name = "" then m else upsert m name c

/-- aggregate_characters of build_main_character_profiles.py: one pass over
all chapter results, visiting mentions in chapter order. -/
def aggregate_characters (chapter_results : List ChapterCharactersWithTraits) :
    List (String × AggregatedCharacter) :=
  chapter_results.foldl (fun m ch => ch.characters.foldl aggStep m) []

/-- Dict lookup in the aggregated map. -/
def lookupEntry (m : List (String × AggregatedCharacter)) (name : String) :
    Option AggregatedCharacter :=
  (m.find? (fun p => p.1 = name)).map (fun p => p.2)

/-- score_character of build_main_character_profiles.py:
main_protagonist 3.0 + secondary_lead 2.0 + supporting 1.0, plus 0.5 per
distinct chapter seen. -/
def score_character (e : AggregatedCharacter) : Rat :=
  (e.main_protagonist_count : Rat) * 3
    + (e.secondary_lead_count : Rat) * 2
    + (e.supporting_count : Rat) * 1
    + (e.chapters_seen.card : Rat) * (1 / 2)

/-- The scored list select_main_characters builds first: one
(name, score, entry) triple per map entry, in map (insertion) order. -/
def scoredList (char_map : List (String × AggregatedCharacter)) :
    List (String × Rat × AggregatedCharacter) :=
  char_map.map (fun p => (p.1, score_character p.2, p.2))

/-- The descending-by-score total preorder select_main_characters sorts by:
a comes no later than b when the score of b is at most the score of a. -/
def scoreDescLE (a b : String × Rat × AggregatedCharacter) : Bool :=
  decide (b.2.1 ≤ a.2.1)

/-- select_main_characters of build_main_character_profiles.py: score every
entry in map (insertion) order, stable-sort descending by score (Python
list.sort with reverse=True is stable: equal scores keep input order, which
is what mergeSort with this total preorder gives), drop entries scoring
below min_score, truncate to max_main_chars. -/
def select_main_characters (char_map : List (String × AggregatedCharacter))
    (max_main_chars : Nat) (min_score : Rat) :
    List (String × Rat × AggregatedCharacter) :=
  let scored := scoredList char_map
  let sorted := scored.mergeSort scoreDescLE
  let filtered := sorted.filter (fun x => decide (min_score ≤ x.2.1))
  filtered.take max_main_chars

/-! ### Trailer script data model and validation (scene_to_trailer.py) -/

/-- BeatRole Literal of scene_to_trailer.py. -/
inductive BeatRole where
  | hook : BeatRole
  | conflict : BeatRole
  | escalation : BeatRole
  | cliffhanger : BeatRole
deriving DecidableEq

/-- spoiler_level Literal of scene_to_trailer.py. -/
inductive SpoilerLevel where
  | none : SpoilerLevel
  | light : SpoilerLevel
  | medium : SpoilerLevel
  | heavy : SpoilerLevel
deriving DecidableEq

/-- TrailerBeat model of scene_to_trailer.py after validation. -/
structure TrailerBeat where
  beat_id : String
  role : BeatRole
  duration_sec : Rat
  source_scenes : List String
  characters : List String
  logline : String
  visual_idea : String
  key_moments : List String
  dialogue_or_text : List String
  spoiler_level : SpoilerLevel
  reasoning : String
deriving DecidableEq

/-- TrailerScript model of scene_to_trailer.py after validation. -/
structure TrailerScript where
  novel_id : String
  title : String
  target_audience : String
  platform : String
  max_duration_sec : Int
  style_tags : List String
  beats : List TrailerBeat
  notes_for_storyboard : String
deriving DecidableEq

/-- A beat as it sits in the model's JSON response before validation:
the two Literal-typed fields are still raw strings. -/
structure RawTrailerBeat where
  beat_id : String
  role : String
  duration_sec : Rat
  source_scenes : List String
  characters : List String
  logline : String
  visual_idea : String
  key_moments : List String
  dialogue_or_text : List String
  spoiler_level : String
  reasoning : String
deriving DecidableEq

/-- A trailer script as it sits in the model's JSON response before
validation. -/
structure RawTrailerScript where
  novel_id : String
  title : String
  target_audience : String
  platform : String
  max_duration_sec : Int
  style_tags : List String
  beats : List RawTrailerBeat
  notes_for_storyboard : String
deriving DecidableEq

/-- Pydantic validation of the BeatRole Literal. -/
def parseBeatRole (s : String) : Option BeatRole :=
  if s = "hook" then some .hook
  else if s = "conflict" then some .conflict
  else if s = "escalation" then some .escalation
  else if s = "cliffhanger" then some .cliffhanger
  else none

/-- Pydantic validation of the spoiler_level Literal. -/
def parseSpoilerLevel (s : String) : Option SpoilerLevel :=
  if s = "none" then some .none
  else if s = "light" then some .light
  else if s = "medium" then some .medium
  else if s = "heavy" then some .heavy
  else none

/-- Pydantic validation of one TrailerBeat: the only constraints are the two
Literal fields; every other field is passed through as is. -/
def validateTrailerBeat (rb : RawTrailerBeat) : Option TrailerBeat :=
  match parseBeatRole rb.role, parseSpoilerLevel rb.spoiler_level with
  | some role, some sp =>
    some
      { beat_id := rb.beat_id
        role := role
        duration_sec := rb.duration_sec
        source_scenes := rb.source_scenes
        characters := rb.characters
        logline := rb.logline
        visual_idea := rb.visual_idea
        key_moments := rb.key_moments
        dialogue_or_text := rb.dialogue_or_text
        spoiler_level := sp
        reasoning := rb.reasoning }
  | _, _ => none

/-- Pydantic validation of the beats array: every beat must validate, and
validation preserves the beats and their order. -/
def validateBeats : List RawTrailerBeat → Option (List TrailerBeat)
  | [] => some []
  | rb :: rest =>
    match validateTrailerBeat rb with
    | none => none
    | some b =>
      match validateBeats rest with
      | none => none
      | some bs => some (b :: bs)

/-- TrailerScript.model_validate_json as called by
generate_trailer_script_from_scenes: the one validation step between the
model response and the script that is returned and written to disk.  No
duration arithmetic happens anywhere on this path. -/
def validate_trailer_script (raw : RawTrailerScript) : Option TrailerScript :=
  match validateBeats raw.beats with
  | none => none
  | some beats =>
    some
      { novel_id := raw.novel_id
        title := raw.title
        target_audience := raw.target_audience
        platform := raw.platform
        max_duration_sec := raw.max_duration_sec
        style_tags := raw.style_tags
        beats := beats
        notes_for_storyboard := raw.notes_for_storyboard }

/-- Sum of duration_sec over the beats of a trailer script. -/
def sumBeatDurations (s : TrailerScript) : Rat :=
  (s.beats.map (fun b => b.duration_sec)).sum

/-! ### Scene corpus and scene index (trailer_to_keyframe.py) -/

/-- One extracted scene as stored in novel_scenes.json and consumed by
trailer_to_keyframe.py. -/
structure Scene where
  scene_id : String
  chapter : String
  brief : String
  characters : List String
  emotion_tags : List String
  function : String
  original_text : String
deriving DecidableEq

/-- One chapter of the scene corpus. -/
structure ChapterScenes where
  chapter_id : String
  scenes : List Scene
deriving DecidableEq

/-- The whole scene corpus (NovelScenes). -/
structure NovelScenes where
  novel_id : String
  title : String
  chapters : List ChapterScenes
deriving DecidableEq

/-- Python dict assignment mapping[k] = v on a string-keyed dict modelled as
a lookup function. -/
def dictInsert (m : String → Option Scene) (k : String) (v : Scene) :
    String → Option Scene :=
  fun q => if q = k then some v else m q

/-- index_scenes_by_id of trailer_to_keyframe.py: flatten every scene into
one dict; a scene with an empty scene_id is skipped; when the chapter id is
non-empty the compound key chapter_id_sScene_id is written first, then the
bare scene_id is written. -/
def index_scenes_by_id (novel_scenes_output : NovelScenes) : String → Option Scene :=
  novel_scenes_output.chapters.foldl
    (fun mapping ch =>
      ch.scenes.foldl
        (fun mapping s =>
          if s.scene_id = "" then mapping
          else
            let mapping :=
              if ch.chapter_id = "" then mapping
              else dictInsert mapping (ch.chapter_id ++ "_s" ++ s.scene_id) s
            dictInsert mapping s.scene_id s)
        mapping)
    (fun _ => none)

/-- The (key, scene) dict writes one scene performs, in execution order:
compound key first (when the chapter id is non-empty), bare key second. -/
def sceneWrites (chap_id : String) (s : Scene) : List (String × Scene) :=
  if s.scene_id = "" then []
  else
    (if chap_id = "" then [] else [(chap_id ++ "_s" ++ s.scene_id, s)])
      ++ [(s.scene_id, s)]

/-- All dict writes one chapter performs, in execution order. -/
def chapterWrites (ch : ChapterScenes) : List (String × Scene) :=
  ch.scenes.flatMap (sceneWrites ch.chapter_id)

/-- All dict writes index_scenes_by_id performs, in execution order. -/
def indexWrites (novel_scenes_output : NovelScenes) : List (String × Scene) :=
  novel_scenes_output.chapters.flatMap chapterWrites

/-- Replay a write log onto a dict. -/
def applyWrites (m : String → Option Scene) (ws : List (String × Scene)) :
    String → Option Scene :=
  ws.foldl (fun m kv => dictInsert m kv.1 kv.2) m

/-- The value of the last write to a key in a write log, if any. -/
def lastWrite (ws : List (String × Scene)) (k : String) : Option Scene :=
  ((ws.filter (fun kv => kv.1 = k)).getLast?).map (fun kv => kv.2)

/-! ### Keyframe derivation (trailer_to_keyframe.py) -/

/-- Keyframe model shared by trailer_to_keyframe.py (which creates it) and
unify_keyframe_style.py (which re-reads it with plain string field types).
story_grounding is a free JSON object of string keys to string lists. -/
structure Keyframe where
  kf_id : String
  beat_id : String
  order_in_beat : Int
  suggested_duration_sec : Rat
  shot_type : String
  camera_angle : String
  composition : String
  action : String
  emotion_tags : List String
  characters : List String
  story_grounding : List (String × List String)
  dialogue_or_text : String
  image_prompt : String
deriving DecidableEq

/-- KeyframePlan model. -/
structure KeyframePlan where
  novel_id : String
  title : String
  keyframes : List Keyframe
deriving DecidableEq

/-- The list comprehension of generate_keyframes_for_trailer that resolves a
beat's source_scenes in the scene index, silently dropping ids that do not
resolve. -/
def scenesForBeat (scene_index : String → Option Scene) (beat : TrailerBeat) :
    List Scene :=
  beat.source_scenes.filterMap scene_index

/-- What one beat contributes to all_keyframes: nothing when no source scene
resolved (the beat is skipped with a warning); otherwise the keyframes the
generation call returns for the beat and its resolved scenes, each with its
characters field overwritten by the beat's characters list. -/
def beatContribution (scene_index : String → Option Scene)
    (gen : TrailerBeat → List Scene → List Keyframe) (beat : TrailerBeat) :
    List Keyframe :=
  let scenes_for_beat := scenesForBeat scene_index beat
  if scenes_for_beat.isEmpty then []
  else (gen beat scenes_for_beat).map (fun kf => { kf with characters := beat.characters })

/-- The beat loop of generate_keyframes_for_trailer of trailer_to_keyframe.py
with the generation call (model request plus BeatKeyframes parsing)
abstracted as gen.  Accumulates all_keyframes over the beats in order. -/
def generate_keyframes_for_trailer (scene_index : String → Option Scene)
    (beats : List TrailerBeat) (gen : TrailerBeat → List Scene → List Keyframe) :
    List Keyframe :=
  beats.foldl
    (fun all_keyframes beat =>
      let scenes_for_beat := scenesForBeat scene_index beat
      if scenes_for_beat.isEmpty then all_keyframes
      else
        all_keyframes
          ++ (gen beat scenes_for_beat).map
            (fun kf => { kf with characters := beat.characters }))
    []

/-! ### Prompt rewriting (unify_keyframe_style.py) -/

/-- Outcome of one prompt-rewrite generation call after the retry loops of
unify_keyframe_style.py have run their course.  blocked: the call stayed
content-filtered after max_retries.  response text candidateParts: the call
returned; text is the response's text attribute; candidateParts is none when
accessing candidates[0].content.parts fails or yields an empty list (the
code's try block raises and catches ValueError), and some t when
parts[0].text is t (t itself is none for a part without text). -/
inductive RewriteOutcome where
  | blocked : RewriteOutcome
  | response (text : Option String) (candidateParts : Option (Option String)) : RewriteOutcome
deriving DecidableEq

/-- Python truthiness test applied to the rewrite text:
new_prompt is None or not new_prompt.strip(). -/
def pyBlank (t : Option String) : Bool :=
  match t with
  | none => true
  | some s => pyStrip s = ""

/-- Result of processing one keyframe: either the keyframe appended to
new_keyframes, or an uncaught exception that kills the batch (None.strip()
when a candidate part carries no text). -/
inductive RewriteResult where
  | ok (kf : Keyframe) : RewriteResult
  | crash : RewriteResult
deriving DecidableEq

/-- The candidate fallback of unify_keyframe_style.py when the response text
is blank: if the parts access raised, keep the original keyframe; if
parts[0].text is a string, use it (stripped) as the new image_prompt even
when it is empty; if parts[0].text is None it reaches new_prompt.strip()
outside any handler and the process crashes. -/
def candidateFallback (kf : Keyframe) (cand : Option (Option String)) : RewriteResult :=
  match cand with
  | none => .ok kf
  | some none => .crash
  | some (some t) => .ok { kf with image_prompt := pyStrip t }

/-- One iteration of the keyframe rewrite loop of unify_keyframe_style.py:
a content-blocked call keeps the original keyframe; otherwise a non-blank
response text becomes the new image_prompt via kf.model_copy updating only
image_prompt; a blank text falls back to the first candidate part. -/
def rewrite_one_keyframe (kf : Keyframe) (out : RewriteOutcome) : RewriteResult :=
  match out with
  | .blocked => .ok kf
  | .response text cand =>
    match text with
    | some t => if pyStrip t = "" then candidateFallback kf cand else .ok { kf with image_prompt := pyStrip t }
    | none => candidateFallback kf cand

/-- Does an outcome make rewrite_one_keyframe crash?  Exactly when the
response text is blank and the first candidate part exists but carries no
text. -/
def crashingOutcome : RewriteOutcome → Bool
  | .response t (some none) => pyBlank t
  | _ => false

/-- The whole rewrite loop from the i-th call on: the keyframes in order,
each processed with its call's outcome; a crash aborts the batch with no
output file. -/
def rewriteFrom (outs : Nat → RewriteOutcome) : Nat → List Keyframe → Option (List Keyframe)
  | _, [] => some []
  | i, kf :: rest =>
    match rewrite_one_keyframe kf (outs i) with
    | .crash => none
    | .ok kf' => (rewriteFrom outs (i + 1) rest).map (fun ks => kf' :: ks)

/-- The styled-plan construction of unify_keyframe_style.py's main: rewrite
every keyframe in order against the per-call outcomes, then rebuild the plan
with the same novel_id and title. -/
def unify_keyframe_style_main (plan : KeyframePlan) (outs : Nat → RewriteOutcome) :
    Option KeyframePlan :=
  (rewriteFrom outs 0 plan.keyframes).map
    (fun ks => { novel_id := plan.novel_id, title := plan.title, keyframes := ks })

/-- Field-by-field agreement of two keyframes on everything except
image_prompt. -/
def sameExceptPrompt (a b : Keyframe) : Prop :=
  a.kf_id = b.kf_id ∧ a.beat_id = b.beat_id ∧ a.order_in_beat = b.order_in_beat
    ∧ a.suggested_duration_sec = b.suggested_duration_sec ∧ a.shot_type = b.shot_type
    ∧ a.camera_angle = b.camera_angle ∧ a.composition = b.composition
    ∧ a.action = b.action ∧ a.emotion_tags = b.emotion_tags
    ∧ a.characters = b.characters ∧ a.story_grounding = b.story_grounding
    ∧ a.dialogue_or_text = b.dialogue_or_text

/-! ### World profile synthesis (novel_world_profile.py) -/

/-- ChapterWorldHints model of novel_world_profile.py. -/
structure ChapterWorldHints where
  novel_name : String
  chapter_id : String
  time_and_era : String
  geography_and_region : String
  social_structure : String
  tech_and_warfare : String
  typical_locales : List String
  clothing_and_wardrobe : List (String × String)
  color_and_mood : String
  visual_motifs : List String
  global_style : String
deriving DecidableEq

/-- WorldProfile model of novel_world_profile.py. -/
structure WorldProfile where
  novel_name : String
  world_summary : String
  era_label : String
  region_style : String
  tech_level : String
  social_structure : String
  typical_locales : List String
  wardrobe_guide : List (String × String)
  color_and_mood : String
  visual_motifs : List String
  global_style : String
deriving DecidableEq

/-- One chapter of novel.json as read by build_world_profile_two_stage:
ch.get lookups may miss, content defaults to the empty string. -/
structure NovelChapter where
  name : Option String
  chapter_id : Option String
  content : String
deriving DecidableEq

/-- One volume of novel.json. -/
structure NovelVolume where
  chapters : List NovelChapter
deriving DecidableEq

/-- novel.json as read by build_world_profile_two_stage. -/
structure NovelData where
  name : Option String
  title : Option String
  summary : String
  volumes : List NovelVolume
deriving DecidableEq

/-- Python a or b chaining on strings: a missing or empty string falls
through to the alternative. -/
def pyStrOr (a : Option String) (b : String) : String :=
  match a with
  | none => b
  | some s => if s = "" then b else s

/-- The chapter identifier the loop passes to the extraction call:
ch.get name, else ch.get chapter_id, else the placeholder. -/
def chapterIdOf (ch : NovelChapter) : String :=
  pyStrOr ch.name (pyStrOr ch.chapter_id "Unknown chapter")

/-- extract_chapter_world_hints of novel_world_profile.py with the
generation call abstracted as hintFn: afterwards a blank novel_name on the
returned hints is backfilled. -/
def extract_chapter_world_hints (hintFn : String → String → ChapterWorldHints)
    (novel_name chapter_id chapter_text : String) : ChapterWorldHints :=
  let hints := hintFn chapter_id chapter_text
  if hints.novel_name = "" then { hints with novel_name := novel_name } else hints

/-- build_world_profile_from_hints of novel_world_profile.py with the
synthesis call abstracted as synthFn (it receives the novel name, the novel
summary and the hints list): afterwards a blank novel_name on the returned
profile is backfilled. -/
def build_world_profile_from_hints
    (synthFn : String → String → List ChapterWorldHints → WorldProfile)
    (novel_name novel_summary : String) (hints_list : List ChapterWorldHints) :
    WorldProfile :=
  let profile := synthFn novel_name novel_summary hints_list
  if profile.novel_name = "" then { profile with novel_name := novel_name } else profile

/-- The chapter truncation of build_world_profile_two_stage:
chapters[:max_chapters] when a cap is given. -/
def truncateChapters (max_chapters : Option Nat) (chapters : List NovelChapter) :
    List NovelChapter :=
  match max_chapters with
  | none => chapters
  | some m => chapters.take m

/-- build_world_profile_two_stage of novel_world_profile.py: read the first
volume's chapters (missing volumes or an empty chapter list abort the run),
truncate to max_chapters, extract one ChapterWorldHints per remaining
chapter in order, and hand exactly that list to the synthesis call. -/
def build_world_profile_two_stage (novel : NovelData) (max_chapters : Option Nat)
    (hintFn : String → String → ChapterWorldHints)
    (synthFn : String → String → List ChapterWorldHints → WorldProfile) :
    Except String WorldProfile :=
  let novel_name := pyStrOr novel.name (pyStrOr novel.title "Unknown novel")
  let novel_summary := novel.summary
  match novel.volumes with
  | [] => .error "no volumes field in novel.json"
  | v0 :: _ =>
    if v0.chapters.isEmpty then .error "volumes[0].chapters is empty"
    else
      let chapters := truncateChapters max_chapters v0.chapters
      let hints_list := chapters.map
        (fun ch => extract_chapter_world_hints hintFn novel_name (chapterIdOf ch) ch.content)
      .ok (build_world_profile_from_hints synthFn novel_name novel_summary hints_list)

/-! ### Concrete inputs used by the concrete theorems below -/

/-- A one-chapter scene corpus with a single scene numbered 1. -/
def sceneC1 : Scene :=
  { scene_id := "1"
    chapter := "v01_ch001"
    brief := "heroine wakes"
    characters := ["Chu Yu"]
    emotion_tags := ["shock"]
    function := "first_meeting"
    original_text := "She woke at dawn." }

/-- Corpus holding only sceneC1 in chapter v01_ch001. -/
def corpusC1 : NovelScenes :=
  { novel_id := "novel"
    title := "title"
    chapters := [{ chapter_id := "v01_ch001", scenes := [sceneC1] }] }

/-- A beat citing one resolvable scene and one dangling scene reference. -/
def beatC1 : TrailerBeat :=
  { beat_id := "B1"
    role := .hook
    duration_sec := 6
    source_scenes := ["v01_ch001_s1", "v01_ch001_s9"]
    characters := ["Chu Yu"]
    logline := "she returns"
    visual_idea := "dawn light"
    key_moments := ["waking"]
    dialogue_or_text := ["She returns to the past"]
    spoiler_level := .none
    reasoning := "strong hook" }

/-- The keyframe the abstract generation call returns for beatC1. -/
def kfC1 : Keyframe :=
  { kf_id := "KF_B1_01"
    beat_id := "B1"
    order_in_beat := 1
    suggested_duration_sec := 3
    shot_type := "MS"
    camera_angle := "eye level"
    composition := "centered"
    action := "she sits up"
    emotion_tags := ["shock"]
    characters := []
    story_grounding := [("scene_ids", ["v01_ch001_s1"]), ("novel_lines", ["She woke at dawn."])]
    dialogue_or_text := "She returns to the past"
    image_prompt := "a young woman sitting up in bed at dawn" }

/-- Abstract generation call returning kfC1 for every request. -/
def genC1 : TrailerBeat → List Scene → List Keyframe := fun _ _ => [kfC1]

/-- What the deriver loop emits for beatC1: kfC1 with the characters list
overwritten by the beat's characters. -/
def kfOutC1 : Keyframe := { kfC1 with characters := beatC1.characters }

/-- A raw model response for the trailer planner: schema-valid, with beat
durations 20 and 20 against max_duration_sec 30. -/
def rawScriptC2 : RawTrailerScript :=
  { novel_id := "novel"
    title := "title"
    target_audience := "fans of epics"
    platform := "tiktok"
    max_duration_sec := 30
    style_tags := ["epic"]
    beats :=
      [{ beat_id := "B1"
         role := "hook"
         duration_sec := 20
         source_scenes := ["v01_ch001_s1"]
         characters := ["Chu Yu"]
         logline := "hook line"
         visual_idea := "idea one"
         key_moments := ["moment"]
         dialogue_or_text := ["line one"]
         spoiler_level := "none"
         reasoning := "works" },
       { beat_id := "B2"
         role := "cliffhanger"
         duration_sec := 20
         source_scenes := ["v01_ch001_s2"]
         characters := ["Chu Yu"]
         logline := "cliff line"
         visual_idea := "idea two"
         key_moments := ["moment"]
         dialogue_or_text := ["line two"]
         spoiler_level := "light"
         reasoning := "works" }]
    notes_for_storyboard := "keep it tight" }

/-- The script validation returns for rawScriptC2. -/
def scriptC2 : TrailerScript :=
  (validate_trailer_script rawScriptC2).getD
    { novel_id := ""
      title := ""
      target_audience := ""
      platform := ""
      max_duration_sec := 0
      style_tags := []
      beats := []
      notes_for_storyboard := "" }

/-- One Chu Yu mention with a given chapter and importance tier. -/
def chuYuMention (cid : String) (imp : Importance) : ChapterCharacterMention :=
  { canonical_name := "Chu Yu"
    aliases := []
    importance := imp
    chapter_id := cid
    chapter_role_summary := ""
    trait_snippets := [] }

/-- Scenario B of the spec: Chu Yu as main_protagonist in five chapters and
supporting in a sixth, six distinct chapters in all. -/
def scenarioB : List ChapterCharactersWithTraits :=
  [{ chapter_id := "c1", characters := [chuYuMention "c1" .main_protagonist] },
   { chapter_id := "c2", characters := [chuYuMention "c2" .main_protagonist] },
   { chapter_id := "c3", characters := [chuYuMention "c3" .main_protagonist] },
   { chapter_id := "c4", characters := [chuYuMention "c4" .main_protagonist] },
   { chapter_id := "c5", characters := [chuYuMention "c5" .main_protagonist] },
   { chapter_id := "c6", characters := [chuYuMention "c6" .supporting] }]

/-- The aggregated entry scenario B produces for Chu Yu. -/
def scenarioBEntry : AggregatedCharacter :=
  (lookupEntry (aggregate_characters scenarioB) "Chu Yu").getD emptyAggregated

/-- First scene of the index-collision corpus: chapter v01_ch001, scene 1,
whose compound key is v01_ch001_s1. -/
def sceneC5A : Scene :=
  { scene_id := "1"
    chapter := "v01_ch001"
    brief := "compound-keyed scene"
    characters := []
    emotion_tags := []
    function := ""
    original_text := "" }

/-- Second scene of the index-collision corpus: a later chapter whose scene
carries the bare scene_id v01_ch001_s1, colliding with the compound key. -/
def sceneC5B : Scene :=
  { scene_id := "v01_ch001_s1"
    chapter := "v02_ch001"
    brief := "bare-keyed scene"
    characters := []
    emotion_tags := []
    function := ""
    original_text := "" }

/-- Corpus in which the key v01_ch001_s1 is both the compound form of
sceneC5A and the bare scene_id of sceneC5B, written in that order. -/
def corpusC5 : NovelScenes :=
  { novel_id := "novel"
    title := "title"
    chapters :=
      [{ chapter_id := "v01_ch001", scenes := [sceneC5A] },
       { chapter_id := "v02_ch001", scenes := [sceneC5B] }] }

/-- A keyframe with a non-empty content-only prompt, fed to the rewriter. -/
def kfC7 : Keyframe :=
  { kf_id := "KF_B2_01"
    beat_id := "B2"
    order_in_beat := 1
    suggested_duration_sec := 4
    shot_type := "CU"
    camera_angle := "low"
    composition := "off center"
    action := "he draws a sword"
    emotion_tags := ["resolve"]
    characters := ["Wei Yun"]
    story_grounding := [("scene_ids", ["v01_ch002_s3"])]
    dialogue_or_text := "A promise is made"
    image_prompt := "a young general drawing a sword on a snowy wall" }

/-- The input keyframe plan for the rewrite batch. -/
def planC8 : KeyframePlan :=
  { novel_id := "novel", title := "title", keyframes := [kfC7] }

/-- Rewrite outcomes for the batch: every call returns a non-blank text. -/
def outsC8 : Nat → RewriteOutcome := fun _ => .response (some "styled prompt") none

/-- The styled plan the rewrite batch produces from planC8 and outsC8. -/
def styledPlanC8 : KeyframePlan :=
  (unify_keyframe_style_main planC8 outsC8).getD { novel_id := "", title := "", keyframes := [] }

/-- First volume of the two-volume novel: one chapter c1. -/
def vol1C9 : NovelVolume :=
  { chapters := [{ name := some "c1", chapter_id := none, content := "text one" }] }

/-- Second volume of the two-volume novel: one chapter c2. -/
def vol2C9 : NovelVolume :=
  { chapters := [{ name := some "c2", chapter_id := none, content := "text two" }] }

/-- A novel whose chapters are spread over two volumes. -/
def novelC9 : NovelData :=
  { name := some "N", title := none, summary := "sum", volumes := [vol1C9, vol2C9] }

/-- Abstract per-chapter hint extraction recording the chapter id it was
called for. -/
def hintFnC9 : String → String → ChapterWorldHints := fun cid _ =>
  { novel_name := ""
    chapter_id := cid
    time_and_era := ""
    geography_and_region := ""
    social_structure := ""
    tech_and_warfare := ""
    typical_locales := []
    clothing_and_wardrobe := []
    color_and_mood := ""
    visual_motifs := []
    global_style := "" }

/-- Abstract synthesis call recording, in world_summary, the chapter ids of
the hints list it received. -/
def synthFnC9 : String → String → List ChapterWorldHints → WorldProfile := fun n s l =>
  { novel_name := n
    world_summary := String.intercalate "|" (l.map (fun h => h.chapter_id))
    era_label := ""
    region_style := ""
    tech_level := ""
    social_structure := ""
    typical_locales := []
    wardrobe_guide := []
    color_and_mood := s
    visual_motifs := []
    global_style := "" }

/-- First chapter of the duplicate-bare-id corpus. -/
def sceneC10A : Scene :=
  { scene_id := "1"
    chapter := "c1"
    brief := "first chapter scene"
    characters := []
    emotion_tags := []
    function := ""
    original_text := "" }

/-- Second chapter of the duplicate-bare-id corpus: same bare scene_id. -/
def sceneC10B : Scene :=
  { scene_id := "1"
    chapter := "c2"
    brief := "second chapter scene"
    characters := []
    emotion_tags := []
    function := ""
    original_text := "" }

/-- Two chapters that both contain a scene with the bare scene_id 1. -/
def corpusC10 : NovelScenes :=
  { novel_id := "novel"
    title := "title"
    chapters :=
      [{ chapter_id := "c1", scenes := [sceneC10A] },
       { chapter_id := "c2", scenes := [sceneC10B] }] }

/-! ### Derived vocabulary used to state the theorems -/

/-- All mentions of the whole input, in chapter-visitation order; this is
the sequence of loop iterations aggregate_characters performs. -/
def allMentions (crs : List ChapterCharactersWithTraits) : List ChapterCharacterMention :=
  crs.flatMap (fun ch => ch.characters)

/-- The mentions whose stripped canonical name is the given name. -/
def mentionsOf (crs : List ChapterCharactersWithTraits) (name : String) :
    List ChapterCharacterMention :=
  (allMentions crs).filter (fun c => pyStrip c.canonical_name = name)

/-- How many mentions of the given name carry the given importance tier. -/
def countImportance (crs : List ChapterCharactersWithTraits) (name : String)
    (imp : Importance) : Nat :=
  ((mentionsOf crs name).filter (fun c => c.importance = imp)).length

/-- The distinct chapter ids over all mentions of the given name. -/
def chaptersSeenOf (crs : List ChapterCharactersWithTraits) (name : String) :
    Finset String :=
  ((mentionsOf crs name).map (fun c => c.chapter_id)).toFinset

/-- Replay of the per-mention entry updates for one name, starting from an
optional already-present entry. -/
def procFrom (o : Option AggregatedCharacter) (rel : List ChapterCharacterMention) :
    Option AggregatedCharacter :=
  rel.foldl (fun o c => some (applyMention (o.getD emptyAggregated) c)) o

/-! ### Helper lemmas: character aggregation -/

theorem lookupEntry_nil (name : String) : lookupEntry [] name = none := rfl

theorem lookupEntry_cons (k : String) (e : AggregatedCharacter)
    (rest : List (String × AggregatedCharacter)) (name : String) :
    lookupEntry ((k, e) :: rest) name = if k = name then some e else lookupEntry rest name := by
  by_cases h : k = name <;> simp [lookupEntry, List.find?_cons, h]

theorem lookupEntry_upsert (m : List (String × AggregatedCharacter)) (n : String)
    (c : ChapterCharacterMention) (k : String) :
    lookupEntry (upsert m n c) k =
      if k = n then some (applyMention ((lookupEntry m n).getD emptyAggregated) c)
      else lookupEntry m k := by
  induction m with
  | nil =>
    by_cases h : k = n <;>
      simp [upsert, lookupEntry_nil, lookupEntry_cons, h, Ne.symm, eq_comm]
  | cons p rest ih =>
    obtain ⟨a, e⟩ := p
    by_cases han : a = n
    · subst han
      by_cases hk : k = a <;>
        simp [upsert, lookupEntry_cons, hk, eq_comm]
    · by_cases hk : a = k
      · subst hk
        have : ¬ a = n := han
        simp [upsert, han, lookupEntry_cons, eq_comm, this]
      · simp [upsert, han, lookupEntry_cons, hk, ih]

theorem foldl_aggStep_flat (crs : List ChapterCharactersWithTraits)
    (m0 : List (String × AggregatedCharacter)) :
    crs.foldl (fun m ch => ch.characters.foldl aggStep m) m0
      = (crs.flatMap (fun ch => ch.characters)).foldl aggStep m0 := by
  induction crs generalizing m0 with
  | nil => rfl
  | cons ch rest ih => simp [List.flatMap_cons, List.foldl_append, ih]

theorem lookupEntry_foldl_aggStep (ms : List ChapterCharacterMention)
    (m0 : List (String × AggregatedCharacter)) (name : String) (hname : name ≠ "") :
    lookupEntry (ms.foldl aggStep m0) name
      = procFrom (lookupEntry m0 name) (ms.filter (fun c => pyStrip c.canonical_name = name)) := by
  induction ms generalizing m0 with
  | nil => rfl
  | cons c rest ih =>
    simp only [List.foldl_cons, aggStep]
    by_cases h0 : pyStrip c.canonical_name = ""
    · have hne : ¬ pyStrip c.canonical_name = name := by
        rw [h0]; exact fun h => hname h.symm
      simp [h0, List.filter_cons, hne, ih, Ne.symm hname]
    · by_cases heq : pyStrip c.canonical_name = name
      · rw [if_neg h0, ih, lookupEntry_upsert, heq, if_pos rfl,
          List.filter_cons_of_pos (by simp [heq])]
        rfl
      · rw [if_neg h0, ih, lookupEntry_upsert, if_neg (fun h => heq h.symm),
          List.filter_cons_of_neg (by simp [heq])]

theorem procFrom_some (e : AggregatedCharacter) (rel : List ChapterCharacterMention) :
    procFrom (some e) rel = some (rel.foldl applyMention e) := by
  induction rel generalizing e with
  | nil => rfl
  | cons c cs ih =>
    show procFrom (some (applyMention e c)) cs = _
    rw [ih, List.foldl_cons]

theorem mem_upsert (m : List (String × AggregatedCharacter)) (n : String)
    (c : ChapterCharacterMention) (p : String × AggregatedCharacter)
    (hp : p ∈ upsert m n c) : p.1 = n ∨ p ∈ m := by
  induction m with
  | nil =>
    simp only [upsert, List.mem_singleton] at hp
    left; rw [hp]
  | cons q rest ih =>
    obtain ⟨a, e⟩ := q
    by_cases han : a = n
    · simp only [upsert, if_pos han, List.mem_cons] at hp
      rcases hp with hp | hp
      · left; rw [hp, han]
      · right; exact List.mem_cons_of_mem _ hp
    · simp only [upsert, if_neg han, List.mem_cons] at hp
      rcases hp with hp | hp
      · right; rw [hp]; exact List.mem_cons_self _ _
      · rcases ih hp with h | h
        · left; exact h
        · right; exact List.mem_cons_of_mem _ h

theorem keys_ne_blank_foldl (ms : List ChapterCharacterMention)
    (m0 : List (String × AggregatedCharacter)) (h0 : ∀ p ∈ m0, p.1 ≠ "") :
    ∀ p ∈ ms.foldl aggStep m0, p.1 ≠ "" := by
  induction ms generalizing m0 with
  | nil => exact h0
  | cons c cs ih =>
    intro p hp
    refine ih (aggStep m0 c) ?_ p hp
    intro q hq
    unfold aggStep at hq
    by_cases hc : pyStrip c.canonical_name = ""
    · rw [if_pos hc] at hq; exact h0 q hq
    · rw [if_neg hc] at hq
      rcases mem_upsert _ _ _ _ hq with h | h
      · rw [h]; exact hc
      · exact h0 q h

theorem lookupEntry_aggregate_blank (crs : List ChapterCharactersWithTraits) :
    lookupEntry (aggregate_characters crs) "" = none := by
  unfold aggregate_characters
  rw [foldl_aggStep_flat]
  have hkeys := keys_ne_blank_foldl (crs.flatMap (fun ch => ch.characters)) [] (by simp)
  unfold lookupEntry
  rw [List.find?_eq_none.2 (fun p hp => by simpa using hkeys p hp)]
  rfl

theorem lookupEntry_aggregate (crs : List ChapterCharactersWithTraits) (name : String)
    (hname : name ≠ "") :
    lookupEntry (aggregate_characters crs) name = procFrom none (mentionsOf crs name) := by
  unfold aggregate_characters mentionsOf allMentions
  rw [foldl_aggStep_flat]
  exact lookupEntry_foldl_aggStep _ _ _ hname

theorem foldl_applyMention_main (rel : List ChapterCharacterMention) (e : AggregatedCharacter) :
    (rel.foldl applyMention e).main_protagonist_count
      = e.main_protagonist_count
        + (rel.filter (fun c => c.importance = Importance.main_protagonist)).length := by
  induction rel generalizing e with
  | nil => simp
  | cons c cs ih =>
    rw [List.foldl_cons, ih, List.filter_cons]
    cases hc : c.importance <;> simp [applyMention, bumpImportance, hc] <;> omega

theorem foldl_applyMention_secondary (rel : List ChapterCharacterMention) (e : AggregatedCharacter) :
    (rel.foldl applyMention e).secondary_lead_count
      = e.secondary_lead_count
        + (rel.filter (fun c => c.importance = Importance.secondary_lead)).length := by
  induction rel generalizing e with
  | nil => simp
  | cons c cs ih =>
    rw [List.foldl_cons, ih, List.filter_cons]
    cases hc : c.importance <;> simp [applyMention, bumpImportance, hc] <;> omega

theorem foldl_applyMention_supporting (rel : List ChapterCharacterMention) (e : AggregatedCharacter) :
    (rel.foldl applyMention e).supporting_count
      = e.supporting_count
        + (rel.filter (fun c => c.importance = Importance.supporting)).length := by
  induction rel generalizing e with
  | nil => simp
  | cons c cs ih =>
    rw [List.foldl_cons, ih, List.filter_cons]
    cases hc : c.importance <;> simp [applyMention, bumpImportance, hc] <;> omega

theorem foldl_applyMention_chapters (rel : List ChapterCharacterMention) (e : AggregatedCharacter) :
    (rel.foldl applyMention e).chapters_seen
      = e.chapters_seen ∪ (rel.map (fun c => c.chapter_id)).toFinset := by
  induction rel generalizing e with
  | nil => simp
  | cons c cs ih =>
    rw [List.foldl_cons, ih]
    have happ : (applyMention e c).chapters_seen = insert c.chapter_id e.chapters_seen := by
      cases hc : c.importance <;> simp [applyMention, bumpImportance, hc]
    rw [happ, List.map_cons, List.toFinset_cons, Finset.insert_union, Finset.union_insert]

/-- C3.  For every aggregated entry, the importance score is three times the
main_protagonist mention count plus twice the secondary_lead count plus the
supporting count plus one half per distinct chapter seen; minor mentions
contribute nothing. -/
theorem score_matches_mention_counts (crs : List ChapterCharactersWithTraits)
    (name : String) (e : AggregatedCharacter)
    (h : lookupEntry (aggregate_characters crs) name = some e) :
    score_character e =
      (countImportance crs name .main_protagonist : Rat) * 3
        + (countImportance crs name .secondary_lead : Rat) * 2
        + (countImportance crs name .supporting : Rat) * 1
        + ((chaptersSeenOf crs name).card : Rat) * (1 / 2) := by
  rcases eq_or_ne name "" with hname | hname
  · rw [hname, lookupEntry_aggregate_blank] at h
    exact absurd h (by simp)
  · rw [lookupEntry_aggregate crs name hname] at h
    cases hrel : mentionsOf crs name with
    | nil =>
      rw [hrel] at h
      exact absurd h (by simp [procFrom])
    | cons c rel =>
      rw [hrel] at h
      have h2 : procFrom (some (applyMention emptyAggregated c)) rel = some e := h
      rw [procFrom_some] at h2
      have he : e = (c :: rel).foldl applyMention emptyAggregated := by
        rw [List.foldl_cons]
        exact (Option.some_injective _ h2).symm
      subst he
      unfold countImportance chaptersSeenOf
      rw [hrel, score_character, foldl_applyMention_main, foldl_applyMention_secondary,
        foldl_applyMention_supporting, foldl_applyMention_chapters]
      simp [emptyAggregated]

/-- Witness for C3: scenario B of the spec evaluates to score 19. -/
theorem score_matches_mention_counts_witness :
    lookupEntry (aggregate_characters scenarioB) "Chu Yu" = some scenarioBEntry
      ∧ score_character scenarioBEntry = 19 := by
  have hl : lookupEntry (aggregate_characters scenarioB) "Chu Yu" = some scenarioBEntry := by
    decide
  have h := score_matches_mention_counts scenarioB "Chu Yu" scenarioBEntry hl
  have h1 : countImportance scenarioB "Chu Yu" .main_protagonist = 5 := by decide
  have h2 : countImportance scenarioB "Chu Yu" .secondary_lead = 0 := by decide
  have h3 : countImportance scenarioB "Chu Yu" .supporting = 1 := by decide
  have h4 : (chaptersSeenOf scenarioB "Chu Yu").card = 6 := by decide
  rw [h1, h2, h3, h4] at h
  refine ⟨hl, ?_⟩
  rw [h]
  norm_num

/-! ### Helper lemmas: main character selection -/

theorem scoreDescLE_trans (a b c : String × Rat × AggregatedCharacter)
    (hab : scoreDescLE a b = true) (hbc : scoreDescLE b c = true) :
    scoreDescLE a c = true := by
  simp only [scoreDescLE, decide_eq_true_eq] at *
  exact le_trans hbc hab

theorem scoreDescLE_total (a b : String × Rat × AggregatedCharacter) :
    (scoreDescLE a b || scoreDescLE b a) = true := by
  simp only [scoreDescLE, Bool.or_eq_true, decide_eq_true_eq]
  exact le_total b.2.1 a.2.1

theorem mergeSort_filter_eq (l : List (String × Rat × AggregatedCharacter))
    (p : String × Rat × AggregatedCharacter → Bool)
    (hp : ∀ a b, p a = true → p b = true → scoreDescLE a b = true) :
    (l.mergeSort scoreDescLE).filter p = l.filter p := by
  have hc : (l.filter p).Pairwise (fun a b => scoreDescLE a b = true) :=
    List.pairwise_of_forall_mem_list
      (fun a ha b hb => hp a b (List.of_mem_filter ha) (List.of_mem_filter hb))
  have hsub : (l.filter p).Sublist (l.mergeSort scoreDescLE) :=
    List.sublist_mergeSort scoreDescLE_trans scoreDescLE_total hc (List.filter_sublist l)
  have hself : (l.filter p).filter p = l.filter p :=
    List.filter_eq_self.2 (fun a ha => List.of_mem_filter ha)
  have hsub2 : (l.filter p).Sublist ((l.mergeSort scoreDescLE).filter p) := by
    have := hsub.filter p
    rwa [hself] at this
  have hlen : ((l.mergeSort scoreDescLE).filter p).length = (l.filter p).length :=
    ((l.mergeSort_perm scoreDescLE).filter p).length_eq
  exact (hsub2.eq_of_length hlen.symm).symm

/-- C4.  select_main_characters returns the scored entries sorted descending
by score with ties kept in input order, entries scoring strictly below
min_score removed, truncated to at most max_main_chars: its length is the
cap against the number of entries reaching min_score; every element reaches
min_score; elements descend in score; the elements of any fixed score form a
sublist of the input-ordered scored list (stable ties); and any qualifying
entry left out scores no higher than every entry kept. -/
theorem select_main_characters_spec (char_map : List (String × AggregatedCharacter))
    (max_main_chars : Nat) (min_score : Rat) :
    (select_main_characters char_map max_main_chars min_score).length
        = min max_main_chars ((scoredList char_map).countP (fun x => decide (min_score ≤ x.2.1)))
      ∧ (∀ x ∈ select_main_characters char_map max_main_chars min_score, min_score ≤ x.2.1)
      ∧ (select_main_characters char_map max_main_chars min_score).Pairwise
          (fun a b => b.2.1 ≤ a.2.1)
      ∧ (∀ q : Rat,
          ((select_main_characters char_map max_main_chars min_score).filter
              (fun x => decide (x.2.1 = q))).Sublist
            ((scoredList char_map).filter (fun x => decide (x.2.1 = q))))
      ∧ (∀ x ∈ scoredList char_map, min_score ≤ x.2.1 →
          x ∉ select_main_characters char_map max_main_chars min_score →
          ∀ y ∈ select_main_characters char_map max_main_chars min_score,
            x.2.1 ≤ y.2.1) := by
  have hr : select_main_characters char_map max_main_chars min_score
      = (((scoredList char_map).mergeSort scoreDescLE).filter
          (fun x => decide (min_score ≤ x.2.1))).take max_main_chars := rfl
  have hfsub : (((scoredList char_map).mergeSort scoreDescLE).filter
      (fun x => decide (min_score ≤ x.2.1))).Sublist
      ((scoredList char_map).mergeSort scoreDescLE) :=
    List.filter_sublist _
  have hrsub : (select_main_characters char_map max_main_chars min_score).Sublist
      (((scoredList char_map).mergeSort scoreDescLE).filter
          (fun x => decide (min_score ≤ x.2.1))) := by
    rw [hr]; exact List.take_sublist _ _
  have hsorted : ((scoredList char_map).mergeSort scoreDescLE).Pairwise
      (fun a b => b.2.1 ≤ a.2.1) := by
    refine (List.sorted_mergeSort scoreDescLE_trans scoreDescLE_total
      (scoredList char_map)).imp ?_
    intro a b h
    simpa [scoreDescLE] using h
  refine ⟨?_, ?_, ?_, ?_, ?_⟩
  · rw [hr, List.length_take, List.countP_eq_length_filter]
    have : (((scoredList char_map).mergeSort scoreDescLE).filter
        (fun x => decide (min_score ≤ x.2.1))).length
        = ((scoredList char_map).filter (fun x => decide (min_score ≤ x.2.1))).length :=
      (((scoredList char_map).mergeSort_perm scoreDescLE).filter _).length_eq
    rw [this]
  · intro x hx
    have := List.of_mem_filter (hrsub.subset hx)
    simpa using this
  · exact (hsorted.sublist hfsub).sublist hrsub
  · intro q
    have h1 : ((select_main_characters char_map max_main_chars min_score).filter
        (fun x => decide (x.2.1 = q))).Sublist
        ((((scoredList char_map).mergeSort scoreDescLE).filter
            (fun x => decide (min_score ≤ x.2.1))).filter (fun x => decide (x.2.1 = q))) :=
      hrsub.filter _
    have h2 : ((((scoredList char_map).mergeSort scoreDescLE).filter
        (fun x => decide (min_score ≤ x.2.1))).filter (fun x => decide (x.2.1 = q))).Sublist
        (((scoredList char_map).mergeSort scoreDescLE).filter (fun x => decide (x.2.1 = q))) :=
      hfsub.filter _
    have h3 : ((scoredList char_map).mergeSort scoreDescLE).filter
        (fun x => decide (x.2.1 = q)) = (scoredList char_map).filter
        (fun x => decide (x.2.1 = q)) := by
      refine mergeSort_filter_eq _ _ ?_
      intro a b ha hb
      simp only [decide_eq_true_eq] at ha hb
      simp [scoreDescLE, ha, hb]
    exact (h1.trans h2).trans (h3 ▸ List.Sublist.refl _)
  · intro x hx hxmin hxr y hy
    have hxs : x ∈ (scoredList char_map).mergeSort scoreDescLE := List.mem_mergeSort.2 hx
    have hxf : x ∈ ((scoredList char_map).mergeSort scoreDescLE).filter
        (fun x => decide (min_score ≤ x.2.1)) :=
      List.mem_filter.2 ⟨hxs, by simpa using hxmin⟩
    have hpf : (((scoredList char_map).mergeSort scoreDescLE).filter
        (fun x => decide (min_score ≤ x.2.1))).Pairwise (fun a b => b.2.1 ≤ a.2.1) :=
      hsorted.sublist hfsub
    have hsplit := List.take_append_drop max_main_chars
      (((scoredList char_map).mergeSort scoreDescLE).filter (fun x => decide (min_score ≤ x.2.1)))
    rw [← hsplit] at hxf hpf
    have hxdrop : x ∈ (((scoredList char_map).mergeSort scoreDescLE).filter
        (fun x => decide (min_score ≤ x.2.1))).drop max_main_chars := by
      rcases List.mem_append.1 hxf with h | h
      · exact absurd (hr ▸ h) hxr
      · exact h
    have := (List.pairwise_append.1 hpf).2.2
    exact this y (hr ▸ hy) x hxdrop

/-! ### Helper lemmas: keyframe derivation -/

theorem foldl_append_eq_flatMap {α β : Type} (f : α → List β) (l : List α) (acc : List β) :
    l.foldl (fun acc a => acc ++ f a) acc = acc ++ l.flatMap f := by
  induction l generalizing acc with
  | nil => simp
  | cons a rest ih => simp [ih]

theorem generate_eq_flatMap (scene_index : String → Option Scene)
    (beats : List TrailerBeat) (gen : TrailerBeat → List Scene → List Keyframe) :
    generate_keyframes_for_trailer scene_index beats gen
      = beats.flatMap (beatContribution scene_index gen) := by
  have hfun : (fun (all_keyframes : List Keyframe) (beat : TrailerBeat) =>
        let scenes_for_beat := scenesForBeat scene_index beat
        if scenes_for_beat.isEmpty then all_keyframes
        else
          all_keyframes
            ++ (gen beat scenes_for_beat).map (fun kf => { kf with characters := beat.characters }))
      = fun all_keyframes beat => all_keyframes ++ beatContribution scene_index gen beat := by
    funext acc beat
    simp only [beatContribution]
    by_cases h : (scenesForBeat scene_index beat).isEmpty <;> simp [h]
  unfold generate_keyframes_for_trailer
  rw [hfun, foldl_append_eq_flatMap]
  simp

/-- C1 (amended).  The deriver loop is per-beat: a beat contributes keyframes
unless its resolved scene list is empty, and that list is empty exactly when
no entry of source_scenes resolves in the index; dangling entries are
silently filtered out and the beat is still processed with the resolvable
remainder. -/
theorem beat_skipped_iff_no_scene_resolves (scene_index : String → Option Scene)
    (beats : List TrailerBeat) (gen : TrailerBeat → List Scene → List Keyframe) :
    generate_keyframes_for_trailer scene_index beats gen
        = beats.flatMap (beatContribution scene_index gen)
      ∧ ∀ beat : TrailerBeat,
          (scenesForBeat scene_index beat = []
            ↔ ∀ sid ∈ beat.source_scenes, scene_index sid = none) := by
  refine ⟨generate_eq_flatMap scene_index beats gen, ?_⟩
  intro beat
  simp [scenesForBeat, List.filterMap_eq_nil_iff]

/-- Counterexample for C1 as stated: beatC1 cites one dangling scene id, yet
the deriver does not drop it; it still yields a keyframe from the one
resolvable scene. -/
theorem beat_with_dangling_ref_still_kept :
    index_scenes_by_id corpusC1 "v01_ch001_s9" = none
      ∧ (index_scenes_by_id corpusC1 "v01_ch001_s1").isSome = true
      ∧ generate_keyframes_for_trailer (index_scenes_by_id corpusC1) [beatC1] genC1
          = [kfOutC1] := by
  refine ⟨rfl, rfl, rfl⟩

/-- C6.  Every keyframe the deriver emits has its characters list copied
verbatim from the beat whose iteration produced it, so its character set is
a subset of that beat's. -/
theorem keyframe_characters_inherited (scene_index : String → Option Scene)
    (beats : List TrailerBeat) (gen : TrailerBeat → List Scene → List Keyframe)
    (kf : Keyframe) (h : kf ∈ generate_keyframes_for_trailer scene_index beats gen) :
    ∃ b ∈ beats, kf.characters = b.characters
      ∧ kf.characters.toFinset ⊆ b.characters.toFinset := by
  rw [generate_eq_flatMap] at h
  rcases List.mem_flatMap.1 h with ⟨b, hb, hmem⟩
  refine ⟨b, hb, ?_⟩
  unfold beatContribution at hmem
  by_cases hs : (scenesForBeat scene_index b).isEmpty
  · simp [hs] at hmem
  · simp only [if_neg hs] at hmem
    rcases List.mem_map.1 hmem with ⟨g, hg, hEq⟩
    constructor
    · rw [← hEq]
    · rw [← hEq]

/-- Witness for C6 at a concrete corpus, beat and generation call. -/
theorem keyframe_characters_inherited_witness :
    ∃ b ∈ [beatC1], kfOutC1.characters = b.characters
      ∧ kfOutC1.characters.toFinset ⊆ b.characters.toFinset :=
  keyframe_characters_inherited (index_scenes_by_id corpusC1) [beatC1] genC1 kfOutC1
    (by rw [show generate_keyframes_for_trailer (index_scenes_by_id corpusC1) [beatC1] genC1
          = [kfOutC1] from rfl]
        exact List.mem_singleton_self _)

/-! ### Helper lemmas: trailer script validation -/

theorem validateTrailerBeat_isSome (rb : RawTrailerBeat) :
    (validateTrailerBeat rb).isSome
      ↔ (parseBeatRole rb.role).isSome ∧ (parseSpoilerLevel rb.spoiler_level).isSome := by
  unfold validateTrailerBeat
  cases parseBeatRole rb.role <;> cases parseSpoilerLevel rb.spoiler_level <;> simp

theorem validateTrailerBeat_duration (rb : RawTrailerBeat) (b : TrailerBeat)
    (h : validateTrailerBeat rb = some b) : b.duration_sec = rb.duration_sec := by
  unfold validateTrailerBeat at h
  cases hr : parseBeatRole rb.role <;> rw [hr] at h <;>
    cases hs : parseSpoilerLevel rb.spoiler_level <;> rw [hs] at h <;> simp at h
  rw [← h]

theorem validateBeats_isSome (l : List RawTrailerBeat) :
    (validateBeats l).isSome ↔ ∀ rb ∈ l, (validateTrailerBeat rb).isSome := by
  induction l with
  | nil => simp [validateBeats]
  | cons rb rest ih =>
    rw [validateBeats]
    cases hv : validateTrailerBeat rb
    · simp [hv]
    · cases hr : validateBeats rest
      · rw [hr] at ih
        simp [hv, ← ih]
      · rw [hr] at ih
        simp [hv, ← ih]

theorem validateBeats_durations (l : List RawTrailerBeat) (bs : List TrailerBeat)
    (h : validateBeats l = some bs) :
    bs.map (fun b => b.duration_sec) = l.map (fun rb => rb.duration_sec) := by
  induction l generalizing bs with
  | nil =>
    simp only [validateBeats, Option.some.injEq] at h
    rw [← h]
    rfl
  | cons rb rest ih =>
    rw [validateBeats] at h
    cases hv : validateTrailerBeat rb <;> rw [hv] at h
    · simp at h
    · cases hr : validateBeats rest <;> rw [hr] at h
      · simp at h
      · simp only [Option.some.injEq] at h
        rw [← h, List.map_cons, List.map_cons, ih _ hr,
          validateTrailerBeat_duration rb _ hv]

/-- C2 (amended).  The planner path from a parseable model response to the
returned script performs schema validation only: acceptance depends solely
on the two Literal fields of each beat, and the accepted script carries the
response's max_duration_sec and beat durations through unchanged — the sum
of durations is never checked against the bound. -/
theorem planner_validation_ignores_durations (raw : RawTrailerScript) :
    ((validate_trailer_script raw).isSome
        ↔ ∀ rb ∈ raw.beats,
            (parseBeatRole rb.role).isSome ∧ (parseSpoilerLevel rb.spoiler_level).isSome)
      ∧ ∀ s, validate_trailer_script raw = some s →
          s.max_duration_sec = raw.max_duration_sec
            ∧ s.beats.map (fun b => b.duration_sec)
                = raw.beats.map (fun rb => rb.duration_sec) := by
  constructor
  · have h1 : (validate_trailer_script raw).isSome ↔ (validateBeats raw.beats).isSome := by
      unfold validate_trailer_script
      cases validateBeats raw.beats <;> simp
    rw [h1, validateBeats_isSome]
    exact ball_congr fun rb _ => validateTrailerBeat_isSome rb
  · intro s hs
    unfold validate_trailer_script at hs
    cases hb : validateBeats raw.beats <;> rw [hb] at hs
    · simp at hs
    · simp only [Option.some.injEq] at hs
      rw [← hs]
      exact ⟨rfl, validateBeats_durations _ _ hb⟩

/-- Counterexample for C2 as stated: a schema-valid response whose beat
durations sum to 40 against max_duration_sec 30 is returned as is. -/
theorem overlong_script_still_returned :
    validate_trailer_script rawScriptC2 = some scriptC2
      ∧ scriptC2.max_duration_sec = 30
      ∧ sumBeatDurations scriptC2 = 40
      ∧ ¬ sumBeatDurations scriptC2 ≤ (scriptC2.max_duration_sec : Rat) := by
  have hb : scriptC2.beats.map (fun b => b.duration_sec) = [20, 20] := rfl
  have hsum : sumBeatDurations scriptC2 = 40 := by
    rw [sumBeatDurations, hb]
    norm_num
  refine ⟨rfl, rfl, hsum, ?_⟩
  rw [hsum, show scriptC2.max_duration_sec = 30 from rfl]
  norm_num

/-! ### Helper lemmas: the scene index -/

theorem applyWrites_append (m : String → Option Scene) (ws1 ws2 : List (String × Scene)) :
    applyWrites m (ws1 ++ ws2) = applyWrites (applyWrites m ws1) ws2 :=
  List.foldl_append _ _ _ _

theorem foldl_sceneStep (chap_id : String) (scenes : List Scene) (m : String → Option Scene) :
    scenes.foldl
      (fun mapping s =>
        if s.scene_id = "" then mapping
        else
          let mapping :=
            if chap_id = "" then mapping
            else dictInsert mapping (chap_id ++ "_s" ++ s.scene_id) s
          dictInsert mapping s.scene_id s)
      m
    = applyWrites m (scenes.flatMap (sceneWrites chap_id)) := by
  induction scenes generalizing m with
  | nil => rfl
  | cons s rest ih =>
    have hstep : (if s.scene_id = "" then m
        else
          let mapping :=
            if chap_id = "" then m
            else dictInsert m (chap_id ++ "_s" ++ s.scene_id) s
          dictInsert mapping s.scene_id s)
        = applyWrites m (sceneWrites chap_id s) := by
      by_cases h1 : s.scene_id = ""
      · simp [h1, sceneWrites, applyWrites]
      · by_cases h2 : chap_id = "" <;> simp [h1, h2, sceneWrites, applyWrites]
    rw [List.foldl_cons, List.flatMap_cons, applyWrites_append, ih, hstep]

theorem index_eq_applyWrites (novel : NovelScenes) :
    index_scenes_by_id novel = applyWrites (fun _ => none) (indexWrites novel) := by
  unfold index_scenes_by_id indexWrites chapterWrites
  generalize (fun _ => none : String → Option Scene) = m0
  induction novel.chapters generalizing m0 with
  | nil => rfl
  | cons ch rest ih =>
    rw [List.foldl_cons, List.flatMap_cons, applyWrites_append, foldl_sceneStep, ih]

theorem getLast?_concat_or {α : Type} (l : List α) (a : α) :
    (l ++ [a]).getLast? = some a := by
  simp [List.getLast?_append]

theorem applyWrites_lookup (ws : List (String × Scene)) (m : String → Option Scene)
    (k : String) :
    applyWrites m ws k = (lastWrite ws k).or (m k) := by
  induction ws using List.reverseRecOn generalizing m with
  | nil => simp [applyWrites, lastWrite]
  | append_singleton l a ih =>
    rw [show l ++ [a] = l ++ [a] from rfl, applyWrites_append]
    have happ : applyWrites (applyWrites m l) [a] k
        = if k = a.1 then some a.2 else applyWrites m l k := rfl
    rw [happ]
    unfold lastWrite
    rw [List.filter_append]
    by_cases ha : a.1 = k
    · have : [a].filter (fun kv => kv.1 = k) = [a] := by simp [ha]
      rw [this, getLast?_concat_or]
      simp [ha.symm]
    · have : [a].filter (fun kv => kv.1 = k) = [] := by simp [ha]
      rw [this, List.append_nil]
      have : ¬ k = a.1 := fun h => ha h.symm
      rw [if_neg this, ih]
      rfl

theorem index_lastWrite (novel : NovelScenes) (k : String) :
    index_scenes_by_id novel k = lastWrite (indexWrites novel) k := by
  rw [index_eq_applyWrites, applyWrites_lookup]
  cases lastWrite (indexWrites novel) k <;> rfl

theorem lastWrite_isSome_of_mem (ws : List (String × Scene)) (k : String) (v : Scene)
    (h : (k, v) ∈ ws) : (lastWrite ws k).isSome = true := by
  unfold lastWrite
  have hmem : (k, v) ∈ ws.filter (fun kv => kv.1 = k) := List.mem_filter.2 ⟨h, by simp⟩
  cases hF : (ws.filter (fun kv => kv.1 = k)).getLast? with
  | none => exact absurd (List.getLast?_isSome.2 (List.ne_nil_of_mem hmem)) (by rw [hF]; simp)
  | some a => rfl

theorem bare_write_mem (novel : NovelScenes) (ch : ChapterScenes) (s : Scene)
    (hch : ch ∈ novel.chapters) (hs : s ∈ ch.scenes) (hsid : s.scene_id ≠ "") :
    (s.scene_id, s) ∈ indexWrites novel := by
  refine List.mem_flatMap.2 ⟨ch, hch, List.mem_flatMap.2 ⟨s, hs, ?_⟩⟩
  simp [sceneWrites, hsid]

theorem compound_write_mem (novel : NovelScenes) (ch : ChapterScenes) (s : Scene)
    (hch : ch ∈ novel.chapters) (hs : s ∈ ch.scenes) (hsid : s.scene_id ≠ "")
    (hchap : ch.chapter_id ≠ "") :
    (ch.chapter_id ++ "_s" ++ s.scene_id, s) ∈ indexWrites novel := by
  refine List.mem_flatMap.2 ⟨ch, hch, List.mem_flatMap.2 ⟨s, hs, ?_⟩⟩
  simp [sceneWrites, hsid, hchap]

/-- C5 (amended).  The scene index is a plain dict built by replaying all
compound and bare writes in chapter/scene order, so any key maps to the most
recently written scene (last-writer-wins, with no preference for
compound-form matches); and for every scene with a non-empty scene_id the
index answers both its bare key and, when the chapter id is non-empty, its
compound key. -/
theorem scene_index_last_writer_wins (novel : NovelScenes) (k : String) :
    index_scenes_by_id novel k = lastWrite (indexWrites novel) k
      ∧ ∀ ch ∈ novel.chapters, ∀ s ∈ ch.scenes, s.scene_id ≠ "" →
          (index_scenes_by_id novel s.scene_id).isSome = true
          ∧ (ch.chapter_id ≠ "" →
              (index_scenes_by_id novel (ch.chapter_id ++ "_s" ++ s.scene_id)).isSome = true) := by
  refine ⟨index_lastWrite novel k, ?_⟩
  intro ch hch s hs hsid
  constructor
  · rw [index_lastWrite]
    exact lastWrite_isSome_of_mem _ _ _ (bare_write_mem novel ch s hch hs hsid)
  · intro hchap
    rw [index_lastWrite]
    exact lastWrite_isSome_of_mem _ _ _ (compound_write_mem novel ch s hch hs hsid hchap)

/-- Counterexample for C5 as stated: in corpusC5 the key v01_ch001_s1 is the
compound form of sceneC5A and the bare scene_id of the later sceneC5B; the
lookup returns the bare-form match, not the compound-form one. -/
theorem bare_write_beats_compound_write :
    index_scenes_by_id corpusC5 "v01_ch001_s1" = some sceneC5B
      ∧ sceneC5B ≠ sceneC5A
      ∧ "v01_ch001" ++ "_s" ++ sceneC5A.scene_id = "v01_ch001_s1" := by
  refine ⟨rfl, by decide, rfl⟩

/-! ### Helper lemmas: bare-id collisions across chapters -/

theorem filter_flatMap {α β : Type} (l : List α) (f : α → List β) (p : β → Bool) :
    (l.flatMap f).filter p = l.flatMap (fun a => (f a).filter p) := by
  induction l with
  | nil => rfl
  | cons a rest ih => simp [List.flatMap_cons, List.filter_append, ih]

theorem filter_sceneWrites (chap_id : String) (x : Scene) (q : String) (hq : q ≠ "")
    (hnc : chap_id = "" ∨ x.scene_id = "" ∨ chap_id ++ "_s" ++ x.scene_id ≠ q) :
    (sceneWrites chap_id x).filter (fun kv => kv.1 = q)
      = if x.scene_id = q then [(q, x)] else [] := by
  by_cases h1 : x.scene_id = ""
  · have : ¬ x.scene_id = q := by rw [h1]; exact fun h => hq h.symm
    simp [sceneWrites, h1, this, Ne.symm hq]
  · by_cases h2 : chap_id = ""
    · by_cases h3 : x.scene_id = q <;> simp [sceneWrites, h1, h2, h3, hq, Ne.symm hq]
    · have h4 : chap_id ++ "_s" ++ x.scene_id ≠ q := by
        rcases hnc with h | h | h
        · exact absurd h h2
        · exact absurd h h1
        · exact h
      by_cases h3 : x.scene_id = q
      · rw [h3] at h4
        simp [sceneWrites, h1, h2, h3, h4, hq]
      · simp [sceneWrites, h1, h2, h3, h4, hq, Ne.symm hq]

theorem filter_chapterWrites (ch : ChapterScenes) (q : String) (hq : q ≠ "")
    (hnc : ∀ x ∈ ch.scenes,
      ch.chapter_id = "" ∨ x.scene_id = "" ∨ ch.chapter_id ++ "_s" ++ x.scene_id ≠ q) :
    (chapterWrites ch).filter (fun kv => kv.1 = q)
      = (ch.scenes.filter (fun x => x.scene_id = q)).map (fun x => (q, x)) := by
  unfold chapterWrites
  rw [filter_flatMap]
  suffices h : ∀ l : List Scene,
      (∀ x ∈ l, ch.chapter_id = "" ∨ x.scene_id = "" ∨ ch.chapter_id ++ "_s" ++ x.scene_id ≠ q) →
      l.flatMap (fun x => (sceneWrites ch.chapter_id x).filter (fun kv => kv.1 = q))
        = (l.filter (fun x => x.scene_id = q)).map (fun x => (q, x)) from
    h ch.scenes hnc
  intro l hl
  induction l with
  | nil => rfl
  | cons x rest ih =>
    rw [List.flatMap_cons,
      filter_sceneWrites ch.chapter_id x q hq (hl x (List.mem_cons_self _ _)),
      ih (fun y hy => hl y (List.mem_cons_of_mem _ hy))]
    by_cases h3 : x.scene_id = q <;> simp [h3, List.filter_cons]

theorem filter_indexWrites (novel : NovelScenes) (q : String) (hq : q ≠ "")
    (hnc : ∀ ch ∈ novel.chapters, ∀ x ∈ ch.scenes,
      ch.chapter_id = "" ∨ x.scene_id = "" ∨ ch.chapter_id ++ "_s" ++ x.scene_id ≠ q) :
    (indexWrites novel).filter (fun kv => kv.1 = q)
      = novel.chapters.flatMap
          (fun ch => (ch.scenes.filter (fun x => x.scene_id = q)).map (fun x => (q, x))) := by
  unfold indexWrites
  rw [filter_flatMap]
  suffices h : ∀ cl : List ChapterScenes,
      (∀ ch ∈ cl, ∀ x ∈ ch.scenes,
        ch.chapter_id = "" ∨ x.scene_id = "" ∨ ch.chapter_id ++ "_s" ++ x.scene_id ≠ q) →
      cl.flatMap (fun ch => (chapterWrites ch).filter (fun kv => kv.1 = q))
        = cl.flatMap
            (fun ch => (ch.scenes.filter (fun x => x.scene_id = q)).map (fun x => (q, x))) from
    h novel.chapters hnc
  intro cl hcl
  induction cl with
  | nil => rfl
  | cons ch rest ih =>
    rw [List.flatMap_cons, List.flatMap_cons,
      filter_chapterWrites ch q hq (hcl ch (List.mem_cons_self _ _)),
      ih (fun c hc => hcl c (List.mem_cons_of_mem _ hc))]

/-- C10.  When chapters earlier in the corpus and a later chapter both
contain scenes with the same bare scene_id, and nothing after that later
chapter writes the key again (no further chapter carries the id and no
compound key collides with it), the bare key resolves to the last such scene
of the last such chapter: last-writer-wins in input chapter order. -/
theorem bare_id_resolves_to_last_chapter (novel : NovelScenes)
    (pre post : List ChapterScenes) (ch2 : ChapterScenes) (s : String) (sc : Scene)
    (hchap : novel.chapters = pre ++ ch2 :: post)
    (hs : s ≠ "")
    (hearlier : ∃ ch ∈ pre, ∃ x ∈ ch.scenes, x.scene_id = s)
    (hlast : (ch2.scenes.filter (fun x => x.scene_id = s)).getLast? = some sc)
    (hpost : ∀ ch ∈ post, ∀ x ∈ ch.scenes, x.scene_id ≠ s)
    (hnc : ∀ ch ∈ novel.chapters, ∀ x ∈ ch.scenes,
      ch.chapter_id = "" ∨ x.scene_id = "" ∨ ch.chapter_id ++ "_s" ++ x.scene_id ≠ s) :
    index_scenes_by_id novel s = some sc := by
  rw [index_lastWrite]
  unfold lastWrite
  rw [filter_indexWrites novel s hs hnc, hchap, List.flatMap_append, List.flatMap_cons]
  have hpostnil : post.flatMap
      (fun ch => (ch.scenes.filter (fun x => x.scene_id = s)).map (fun x => (s, x))) = [] := by
    refine List.flatMap_eq_nil_iff.2 ?_
    intro ch hch
    have hfil : ch.scenes.filter (fun x => x.scene_id = s) = [] :=
      List.filter_eq_nil_iff.2 (fun x hx => by simpa using hpost ch hch x hx)
    rw [hfil]
    rfl
  rw [hpostnil, List.append_nil]
  have hB : ((ch2.scenes.filter (fun x => x.scene_id = s)).map (fun x => (s, x))).getLast?
      = some (s, sc) := by
    rw [List.getLast?_map, hlast]
    rfl
  rw [List.getLast?_append, hB]
  rfl

/-- Witness for C10: chapters c1 and c2 both hold a scene with bare id 1;
the lookup answers chapter c2's scene. -/
theorem bare_id_resolves_to_last_chapter_witness :
    index_scenes_by_id corpusC10 "1" = some sceneC10B :=
  bare_id_resolves_to_last_chapter corpusC10
    [{ chapter_id := "c1", scenes := [sceneC10A] }] []
    { chapter_id := "c2", scenes := [sceneC10B] } "1" sceneC10B
    rfl (by decide)
    ⟨{ chapter_id := "c1", scenes := [sceneC10A] }, by decide, sceneC10A, by decide, by decide⟩
    (by decide) (by decide) (by decide)

/-! ### Helper lemmas: prompt rewriting -/

theorem sameExceptPrompt_refl (kf : Keyframe) : sameExceptPrompt kf kf := by
  simp [sameExceptPrompt]

theorem candidateFallback_sameExcept (kf : Keyframe) (cand : Option (Option String))
    (kf' : Keyframe) (h : candidateFallback kf cand = .ok kf') : sameExceptPrompt kf kf' := by
  cases cand with
  | none =>
    simp only [candidateFallback, RewriteResult.ok.injEq] at h
    rw [← h]
    exact sameExceptPrompt_refl kf
  | some t =>
    cases t with
    | none => simp [candidateFallback] at h
    | some u =>
      simp only [candidateFallback, RewriteResult.ok.injEq] at h
      rw [← h]
      simp [sameExceptPrompt]

theorem rewrite_one_sameExcept (kf : Keyframe) (o : RewriteOutcome) (kf' : Keyframe)
    (h : rewrite_one_keyframe kf o = .ok kf') : sameExceptPrompt kf kf' := by
  cases o with
  | blocked =>
    simp only [rewrite_one_keyframe, RewriteResult.ok.injEq] at h
    rw [← h]
    exact sameExceptPrompt_refl kf
  | response t cand =>
    cases t with
    | none =>
      simp only [rewrite_one_keyframe] at h
      exact candidateFallback_sameExcept kf cand kf' h
    | some u =>
      simp only [rewrite_one_keyframe] at h
      by_cases hu : pyStrip u = ""
      · rw [if_pos hu] at h
        exact candidateFallback_sameExcept kf cand kf' h
      · rw [if_neg hu] at h
        simp only [RewriteResult.ok.injEq] at h
        rw [← h]
        simp [sameExceptPrompt]

theorem rewriteFrom_forall2 (outs : Nat → RewriteOutcome) (kfs : List Keyframe) (i : Nat)
    (ks : List Keyframe) (h : rewriteFrom outs i kfs = some ks) :
    List.Forall₂ sameExceptPrompt kfs ks := by
  induction kfs generalizing i ks with
  | nil =>
    simp only [rewriteFrom, Option.some.injEq] at h
    rw [← h]
    exact .nil
  | cons kf rest ih =>
    rw [rewriteFrom] at h
    cases hr : rewrite_one_keyframe kf (outs i) <;> rw [hr] at h
    · cases hrest : rewriteFrom outs (i + 1) rest <;> rw [hrest] at h
      · simp at h
      · simp only [Option.map_some', Option.some.injEq] at h
        rw [← h]
        exact List.Forall₂.cons (rewrite_one_sameExcept _ _ _ hr) (ih _ _ hrest)
    · simp at h

theorem rewrite_one_ok_of_not_crashing (kf : Keyframe) (o : RewriteOutcome)
    (h : crashingOutcome o = false) : ∃ kf', rewrite_one_keyframe kf o = .ok kf' := by
  cases o with
  | blocked => exact ⟨kf, rfl⟩
  | response t cand =>
    cases t with
    | none =>
      cases cand with
      | none => exact ⟨kf, rfl⟩
      | some c =>
        cases c with
        | none => simp [crashingOutcome, pyBlank] at h
        | some u => exact ⟨{ kf with image_prompt := pyStrip u }, rfl⟩
    | some u =>
      by_cases hu : pyStrip u = ""
      · cases cand with
        | none => exact ⟨kf, by simp [rewrite_one_keyframe, hu, candidateFallback]⟩
        | some c =>
          cases c with
          | none => simp [crashingOutcome, pyBlank, hu] at h
          | some w =>
            exact ⟨{ kf with image_prompt := pyStrip w },
              by simp [rewrite_one_keyframe, hu, candidateFallback]⟩
      · exact ⟨{ kf with image_prompt := pyStrip u },
          by simp [rewrite_one_keyframe, hu]⟩

theorem rewriteFrom_some_of_not_crashing (outs : Nat → RewriteOutcome)
    (h : ∀ j, crashingOutcome (outs j) = false) (kfs : List Keyframe) (i : Nat) :
    ∃ ks, rewriteFrom outs i kfs = some ks ∧ ks.length = kfs.length := by
  induction kfs generalizing i with
  | nil => exact ⟨[], rfl, rfl⟩
  | cons kf rest ih =>
    obtain ⟨kf', hkf⟩ := rewrite_one_ok_of_not_crashing kf (outs i) (h i)
    obtain ⟨ks, hks, hlen⟩ := ih (i + 1)
    refine ⟨kf' :: ks, ?_, by simp [hlen]⟩
    rw [rewriteFrom, hkf, hks]
    rfl

/-- C7 (amended).  A content-blocked rewrite call keeps the original
keyframe, and so does a blank response whose candidate fallback raises; but
when the response text is blank and a first candidate part carries a string,
that string (stripped) becomes the image_prompt even when it is empty.  A
batch whose outcomes never hit the crashing case (blank text with a
text-less candidate part) processes every keyframe and keeps the count. -/
theorem rewrite_failure_keeps_original_prompt (kf : Keyframe) :
    rewrite_one_keyframe kf .blocked = .ok kf
      ∧ (∀ t, pyBlank t = true → rewrite_one_keyframe kf (.response t none) = .ok kf)
      ∧ (∀ t s, pyBlank t = true →
          rewrite_one_keyframe kf (.response t (some (some s)))
            = .ok { kf with image_prompt := pyStrip s })
      ∧ ∀ (plan : KeyframePlan) (outs : Nat → RewriteOutcome),
          (∀ j, crashingOutcome (outs j) = false) →
          ∃ ks, rewriteFrom outs 0 plan.keyframes = some ks
            ∧ ks.length = plan.keyframes.length := by
  refine ⟨rfl, ?_, ?_, ?_⟩
  · intro t ht
    cases t with
    | none => rfl
    | some u =>
      have hu : pyStrip u = "" := by simpa [pyBlank] using ht
      simp [rewrite_one_keyframe, hu, candidateFallback]
  · intro t s ht
    cases t with
    | none => rfl
    | some u =>
      have hu : pyStrip u = "" := by simpa [pyBlank] using ht
      simp [rewrite_one_keyframe, hu, candidateFallback]
  · intro plan outs houts
    exact rewriteFrom_some_of_not_crashing outs houts plan.keyframes 0

/-- Counterexample for C7 as stated: a response whose only text part is the
empty string leaves the keyframe with an empty image_prompt instead of the
original content-only prompt. -/
theorem empty_candidate_text_overwrites_prompt :
    rewrite_one_keyframe kfC7 (.response (some "") (some (some "")))
        = .ok { kfC7 with image_prompt := "" }
      ∧ kfC7.image_prompt ≠ "" := by
  exact ⟨rfl, by decide⟩

/-- C8.  When the rewrite batch completes, the styled plan keeps the
novel_id, the title, and the number and order of keyframes, and every
keyframe agrees with its original on every field except image_prompt. -/
theorem styled_plan_changes_only_image_prompt (plan : KeyframePlan)
    (outs : Nat → RewriteOutcome) (newPlan : KeyframePlan)
    (h : unify_keyframe_style_main plan outs = some newPlan) :
    newPlan.novel_id = plan.novel_id ∧ newPlan.title = plan.title
      ∧ newPlan.keyframes.length = plan.keyframes.length
      ∧ List.Forall₂ sameExceptPrompt plan.keyframes newPlan.keyframes := by
  unfold unify_keyframe_style_main at h
  cases hr : rewriteFrom outs 0 plan.keyframes <;> rw [hr] at h
  · simp at h
  · simp only [Option.map_some', Option.some.injEq] at h
    rw [← h]
    have hf := rewriteFrom_forall2 outs plan.keyframes 0 _ hr
    exact ⟨rfl, rfl, hf.length_eq.symm, hf⟩

/-- Witness for C8 at a concrete plan and batch of outcomes. -/
theorem styled_plan_changes_only_image_prompt_witness :
    styledPlanC8.novel_id = planC8.novel_id ∧ styledPlanC8.title = planC8.title
      ∧ styledPlanC8.keyframes.length = planC8.keyframes.length
      ∧ List.Forall₂ sameExceptPrompt planC8.keyframes styledPlanC8.keyframes :=
  styled_plan_changes_only_image_prompt planC8 outsC8 styledPlanC8 rfl

/-- C9 (amended).  The synthesis call receives exactly one hints record per
chapter of the FIRST volume truncated to max_chapters (a prefix of that
volume's chapter list), in order; chapters beyond the cap and chapters of
every later volume contribute nothing. -/
theorem world_profile_uses_first_volume_prefix (novel : NovelData)
    (max_chapters : Option Nat) (hintFn : String → String → ChapterWorldHints)
    (synthFn : String → String → List ChapterWorldHints → WorldProfile)
    (v0 : NovelVolume) (rest : List NovelVolume)
    (hvol : novel.volumes = v0 :: rest) (hch : v0.chapters ≠ []) :
    build_world_profile_two_stage novel max_chapters hintFn synthFn
        = .ok (build_world_profile_from_hints synthFn
            (pyStrOr novel.name (pyStrOr novel.title "Unknown novel")) novel.summary
            ((truncateChapters max_chapters v0.chapters).map
              (fun ch => extract_chapter_world_hints hintFn
                (pyStrOr novel.name (pyStrOr novel.title "Unknown novel"))
                (chapterIdOf ch) ch.content)))
      ∧ List.IsPrefix (truncateChapters max_chapters v0.chapters) v0.chapters := by
  constructor
  · have hne : v0.chapters.isEmpty = false := by
      cases hcc : v0.chapters
      · exact absurd hcc hch
      · rfl
    unfold build_world_profile_two_stage
    rw [hvol]
    simp [hne]
  · unfold truncateChapters
    cases max_chapters with
    | none => exact List.prefix_refl _
    | some m => exact List.take_prefix m _

/-- Witness for C9 at the concrete two-volume novel. -/
theorem world_profile_uses_first_volume_prefix_witness :
    build_world_profile_two_stage novelC9 none hintFnC9 synthFnC9
        = .ok (build_world_profile_from_hints synthFnC9
            (pyStrOr novelC9.name (pyStrOr novelC9.title "Unknown novel")) novelC9.summary
            ((truncateChapters none vol1C9.chapters).map
              (fun ch => extract_chapter_world_hints hintFnC9
                (pyStrOr novelC9.name (pyStrOr novelC9.title "Unknown novel"))
                (chapterIdOf ch) ch.content)))
      ∧ List.IsPrefix (truncateChapters none vol1C9.chapters) vol1C9.chapters :=
  world_profile_uses_first_volume_prefix novelC9 none hintFnC9 synthFnC9 vol1C9 [vol2C9]
    rfl (by decide)

/-- Counterexample for C9 as stated: novelC9 has two chapters spread over
two volumes, yet the synthesis call sees only chapter c1 of the first
volume (the recording synthFnC9 writes the chapter ids it received into
world_summary). -/
theorem second_volume_chapters_never_reach_synthesis :
    build_world_profile_two_stage novelC9 none hintFnC9 synthFnC9
        = .ok { novel_name := "N", world_summary := "c1", era_label := "",
                region_style := "", tech_level := "", social_structure := "",
                typical_locales := [], wardrobe_guide := [], color_and_mood := "sum",
                visual_motifs := [], global_style := "" }
      ∧ (novelC9.volumes.flatMap (fun v => v.chapters)).length = 2 := by
  exact ⟨rfl, rfl⟩
